import Mathlib

/-!
Verification development for the nft-sales-bot repository (src/api_calls.py,
src/observer.py, src/main.py).  The Python source is shallowly embedded:
pure fragments become Lean functions, the poll cycle becomes explicit state
passing, HTTP traffic is abstracted as a per-attempt response oracle, and
Python exceptions become `Except` values (the error payload carries the
in-memory state that survives a caught exception).  Floats are modelled as
rationals, Unix times as integers.
-/

/-! ## Upstream HTTP client (src/api_calls.py) -/

/-- Outcome of one HTTP attempt inside a retry loop: `success` is an HTTP 200
whose body parsed to `payload`; `failure code` is a completed response with a
non-200 status code; `netError` means the request itself raised before any
response existed (in `ask_jopegs_internal` the dummy `httpx.Response(666)`
is then the visible response). -/
inductive AttemptResponse (α : Type) where
  | success (payload : α)
  | failure (statusCode : Nat)
  | netError
deriving DecidableEq, Repr

/-- Observable outcome of a whole retry loop: the value returned (`none` when
the loop fell through after its last attempt), the sleeps performed in order
(in time units), whether the process was aborted (`exit(1)` on a 401, which
raises `SystemExit` and escapes every `except Exception`), and how many
attempts were actually made. -/
structure RetryOutcome (α : Type) where
  result : Option α
  waits : List Nat
  aborted : Bool
  attemptsMade : Nat
deriving DecidableEq, Repr

/-- Embeds the body of `ApiCalls.ask_jopegs_internal` (src/api_calls.py lines
93-132): `for request_attempt in range(self.connection_tries)`, one call per
iteration.  Status 200 returns the parsed body; 401 logs and calls `exit(1)`;
429 sleeps 15 and raises (the raise is caught by `except Exception`, so the
attempt is consumed); any other status, or a network error, raises and is
caught with no sleep at all.  Falling out of the loop returns Python `None`.
`f i` is the response to attempt `i`; `fuel` counts the remaining loop
iterations. -/
def jopegsRetryAux (f : Nat → AttemptResponse α) (i : Nat) : Nat → RetryOutcome α
  | 0 => { result := none, waits := [], aborted := false, attemptsMade := 0 }
  | fuel + 1 =>
    match f i with
    | .success payload =>
        { result := some payload, waits := [], aborted := false, attemptsMade := 1 }
    | .failure code =>
        if code = 401 then
          { result := none, waits := [], aborted := true, attemptsMade := 1 }
        else if code = 429 then
          let rest := jopegsRetryAux f (i + 1) fuel
          { result := rest.result, waits := 15 :: rest.waits,
            aborted := rest.aborted, attemptsMade := rest.attemptsMade + 1 }
        else
          let rest := jopegsRetryAux f (i + 1) fuel
          { result := rest.result, waits := rest.waits,
            aborted := rest.aborted, attemptsMade := rest.attemptsMade + 1 }
    | .netError =>
        let rest := jopegsRetryAux f (i + 1) fuel
        { result := rest.result, waits := rest.waits,
          aborted := rest.aborted, attemptsMade := rest.attemptsMade + 1 }

/-- The `ask_jopegs_internal` retry loop with its configured budget
`self.connection_tries = 3` (src/api_calls.py line 26).  The feed call
(`ask_joepegs_about_recent_sales`), the floor call (`ask_joepegs_about_floor`)
and the sale-history call (`ask_joepegs_about_sale`) all delegate to it. -/
def askJopegsInternal (f : Nat → AttemptResponse α) : RetryOutcome α :=
  jopegsRetryAux f 0 3

/-- Embeds the body of `ApiCalls.ask_thegraph_internal` (src/api_calls.py
lines 60-73), the reference-price client: status 200 returns the body; any
other outcome raises, is caught, and sleeps `1 + 1 * tries` time units
(attempt 0 sleeps 1, attempt 1 sleeps 2, attempt 2 sleeps 3) before the next
iteration; after the last attempt it logs and falls through to `None`. -/
def thegraphRetryAux (f : Nat → AttemptResponse α) (i : Nat) : Nat → RetryOutcome α
  | 0 => { result := none, waits := [], aborted := false, attemptsMade := 0 }
  | fuel + 1 =>
    match f i with
    | .success payload =>
        { result := some payload, waits := [], aborted := false, attemptsMade := 1 }
    | _ =>
        let rest := thegraphRetryAux f (i + 1) fuel
        { result := rest.result, waits := (1 + 1 * i) :: rest.waits,
          aborted := rest.aborted, attemptsMade := rest.attemptsMade + 1 }

/-- The `ask_thegraph_internal` loop with `connection_tries = 3`. -/
def askThegraphInternal (f : Nat → AttemptResponse α) : RetryOutcome α :=
  thegraphRetryAux f 0 3

/-- One attempt of the retry policy the joepegs client actually implements,
written from the amended claim: a 200 response is parsed and returned; a 401
aborts the whole process; a 429 consumes the attempt and contributes a 15-unit
wait before the next attempt; every other failure consumes the attempt and
contributes no wait at all (the next attempt starts immediately). -/
def retryPolicyStep (r : AttemptResponse α) (next : RetryOutcome α) : RetryOutcome α :=
  match r with
  | .success p => { result := some p, waits := [], aborted := false, attemptsMade := 1 }
  | .failure c =>
      if c = 401 then
        { result := none, waits := [], aborted := true, attemptsMade := 1 }
      else
        { result := next.result,
          waits := (if c = 429 then [15] else []) ++ next.waits,
          aborted := next.aborted,
          attemptsMade := next.attemptsMade + 1 }
  | .netError =>
      { result := next.result, waits := next.waits, aborted := next.aborted,
        attemptsMade := next.attemptsMade + 1 }

/-- Exactly three policy attempts, consulting only responses 0, 1 and 2; a
loop that exhausts all three yields `none` without raising. -/
def jopegsPolicySpec (f : Nat → AttemptResponse α) : RetryOutcome α :=
  retryPolicyStep (f 0) (retryPolicyStep (f 1) (retryPolicyStep (f 2)
    { result := none, waits := [], aborted := false, attemptsMade := 0 }))

/-- Rational model of Python `round(x, 2)`: round-half-to-even on the value
scaled by 100.  (Python rounds binary doubles; the representation error of
the double is not modelled, and no claim depends on it.) -/
def pyRound2 (q : Rat) : Rat :=
  let s := q * 100
  let fl := ⌊s⌋
  let frac := s - fl
  let r : Int :=
    if frac < 1 / 2 then fl
    else if frac > 1 / 2 then fl + 1
    else if fl % 2 = 0 then fl else fl + 1
  (r : Rat) / 100

/-- Embeds `ApiCalls.ask_joepegs_about_floor` (src/api_calls.py lines 75-85).
The payload of a successful response is the raw `"floor"` field, an integer
scaled by `10 ^ 18`, or `none` when the key is missing or unparsable.  The
`try` block computes `round(float(response["floor"]) * 10 ** (-18), 2)`; any
exception — including `response` being Python `None` after an exhausted retry
loop — is caught and the function returns the number `0`. -/
def askJoepegsAboutFloor (f : Nat → AttemptResponse (Option Int)) : Rat :=
  match (askJopegsInternal f).result with
  | some (some v) => pyRound2 ((v : Rat) / 10 ^ 18)
  | some none => 0
  | none => 0

/-! ## Data model (spec section 3; data_classes.py is not under src/) -/

/-- Raw feed entry as consumed by src/observer.py: the fields
`raw_sale["id"]`, `raw_sale["collection"]`, `raw_sale["tokenId"]`,
`raw_sale["verified"]` and the feed timestamp the sort key is taken from
(spec: RawSaleRecord `{id, collectionId, tokenId, timestampOfFeedEntry,
verificationStatus}`). -/
structure RawSale where
  id : String
  collection : String
  tokenId : Nat
  timestamp : Int
  verified : String
deriving DecidableEq, Repr

/-- One sale-history entry as returned by `ask_joepegs_about_sale`; index 0 is
the most recent (spec: SaleHistoryEntry `{timestamp, priceNative}`).  Only the
timestamp of entry 0 is read by the pipeline. -/
structure HistoryEntry where
  timestamp : Int
  priceNative : Rat
deriving DecidableEq, Repr

/-- Modelled from the spec: `ItemSale` lives in data_classes.py, which is not
under src/.  Per spec section 3 an EnrichedSale is `{rawSale,
floorPriceNative, lastSaleHistory, referencePriceSnapshot, transactionId,
sortKey = timestampOfFeedEntry}`; the constructor call in
`_get_single_sale_data_from` supplies exactly `avax_price_in_usd`, `raw_sale`,
`price_floor` and `last_sales`. -/
structure ItemSale where
  avaxPriceInUsd : Rat
  rawSale : RawSale
  priceFloor : Rat
  lastSales : List HistoryEntry
deriving DecidableEq, Repr

/-- Modelled from the spec: `transactionId` of an EnrichedSale is the feed
entry's `id` — the dedup gate `_new_sales` compares feed ids against the very
ledger that `_filter_and_notify` fills with `sale.transaction_id`. -/
def ItemSale.transaction_id (s : ItemSale) : String := s.rawSale.id

/-- Modelled from the spec: the collection id of the enriched sale. -/
def ItemSale.contract_id (s : ItemSale) : String := s.rawSale.collection

/-- Modelled from the spec: `sortKey = timestampOfFeedEntry`. -/
def ItemSale.sort_index (s : ItemSale) : Int := s.rawSale.timestamp

/-! ## Subscriber filters (src/observer.py, class FilteredObserver) -/

/-- Embeds Python `str.lower()` as character-wise ASCII case folding over the
string's character list. -/
def pyLower (s : String) : String := ⟨s.data.map Char.toLower⟩

/-- Embeds `FilteredObserver.set_collection_filter` (src/observer.py lines
288-296): every configured collection id is lowercased before it is stored
in `self._observed_collections`. -/
def set_collection_filter (collectionIds : List String) : List String :=
  collectionIds.map pyLower

/-- Embeds `FilteredObserver.filter_by_collection` (src/observer.py lines
298-302): `contract_id in self._observed_collections or
self._observed_collections == []`. -/
def filter_by_collection (observed : List String) (contractId : String) : Bool :=
  observed.contains contractId || observed.isEmpty

/-- Embeds `FilteredObserver.filer_by_price` (sic, src/observer.py lines
312-313): `not self.min_price or price >= self.min_price`; the default
`min_price = 0` is falsy, so an absent minimum passes everything. -/
def filer_by_price (minPrice price : Rat) : Bool :=
  minPrice == 0 || decide (minPrice ≤ price)

/-- Embeds `FilteredObserver.should_be_notified` (src/observer.py lines
315-316). -/
def should_be_notified (observed : List String) (minPrice : Rat)
    (contractId : String) (price : Rat) : Bool :=
  filter_by_collection observed contractId && filer_by_price minPrice price

/-- Modelled from the spec: data_classes.py (where `ItemSale.contract_id` is
built from the feed entry) is not under src/; per the spec the sale's
collection id reaches the subscriber filter case folded ("sale with
collection \"ABC\" (case folded)"). -/
def foldCollectionId (s : String) : String := pyLower s

/-- Embeds `SaleFinderSubject.filter_collections` (src/observer.py lines
214-218): `contract_id in self._observed_collections or
len(self._observed_collections) == 0`. -/
def filter_collections (observed : List String) (contractId : String) : Bool :=
  observed.contains contractId || observed.length == 0

/-! ## Reference-price cache (src/observer.py, get_avax_price_in_usd) -/

/-- The two instance fields `avax_price_in_usd` (initially 0) and
`last_checked_avax_price_at` (initially 0) of `SaleFinderSubject`. -/
structure PriceCache where
  avaxPrice : Rat
  lastCheckedAt : Int
deriving DecidableEq, Repr

/-- Embeds `SaleFinderSubject.get_avax_price_in_usd` (src/observer.py lines
96-107).  `refreshResult` is what `ask_thegraph_avax_price` would return for
this cycle — the quoted AVAX price, or its failure sentinel `0` (modelled as
the rational 0; Python truthiness `if avax_price_in_usd:` becomes `≠ 0`).
The second component records whether the refresh call was made.  The two
`time.time()` readings of the body are modelled as the single instant
`now`. -/
def getAvaxPriceInUsd (now freq : Int) (refreshResult : Rat)
    (st : PriceCache) : PriceCache × Bool :=
  let lastCheckedAgo := now - st.lastCheckedAt
  if lastCheckedAgo > freq then
    if refreshResult ≠ 0 then
      ({ avaxPrice := refreshResult, lastCheckedAt := now }, true)
    else (st, true)
  else (st, false)

/-- The PriceCache contract exactly as the spec words it: when `now -
lastRefreshedAt` is at most the TTL the cached value is returned unchanged
and no refresh happens; otherwise the refresh runs, a usable (nonzero) value
replaces both the value and the timestamp, and an unusable value leaves both
untouched. -/
def priceCacheSpec (now freq : Int) (refreshResult : Rat)
    (st : PriceCache) : PriceCache × Bool :=
  if now - st.lastCheckedAt ≤ freq then (st, false)
  else if refreshResult ≠ 0 then
    ({ avaxPrice := refreshResult, lastCheckedAt := now }, true)
  else (st, true)

/-! ## Dedup ledger persistence (src/observer.py,
_write_notified_sales_to_file) -/

/-- Python slice `l[-n:]` for a natural `n`, including the `n = 0` edge:
`l[-0:]` is `l[0:]`, the whole list. -/
def pySliceLastN (l : List α) (n : Nat) : List α :=
  if n = 0 then l else l.drop (l.length - n)

/-- Embeds `SaleFinderSubject._write_notified_sales_to_file` (src/observer.py
lines 263-279): `_saving_amount = recentSalesAmount * 2`; when the in-memory
list is longer it is replaced by `self._last_notified_transactions
[-_saving_amount:]` before being dumped to the file.  The returned list is
both the new in-memory list and the persisted content. -/
def writeNotifiedSales (recentSalesAmount : Nat) (ledger : List String) :
    List String :=
  if ledger.length > recentSalesAmount * 2 then
    pySliceLastN ledger (recentSalesAmount * 2)
  else ledger

/-! ## Enrichment (src/observer.py, _get_single_sale_data_from) -/

/-- Embeds `SaleFinderSubject._get_single_sale_data_from` (src/observer.py
lines 145-195) for one candidate.  `history` is the `ask_joepegs_about_sale`
result: `none` when the retry loop was exhausted (Python `None`, falsy) — the
`asyncio.gather` exception path cannot fire here because both API wrappers
catch their own errors, and a 401 aborts the process instead.  An empty list
is also falsy and dropped.  Otherwise `time_from_sale = round(time.time() -
_api_last_sale[0]["timestamp"])` (exact on integer times) is compared with
`oldestSaleToNotify`, and a fresh-enough candidate is appended as an
`ItemSale`. -/
def getSingleSaleData (now oldest : Int) (avax : Rat)
    (history : Option (List HistoryEntry)) (floor : Rat) (raw : RawSale) :
    Option ItemSale :=
  match history with
  | none => none
  | some [] => none
  | some (h0 :: rest) =>
    let timeFromSale := now - h0.timestamp
    if timeFromSale > oldest then none
    else some { avaxPriceInUsd := avax, rawSale := raw, priceFloor := floor,
                lastSales := h0 :: rest }

/-- Embeds `SaleFinderSubject._choose_sales_to_get_data_about` (src/observer.py
lines 109-115): keep feed entries whose id is not ledgered and whose
`verified` field is not `"blocklisted"`. -/
def chooseSales (ledger : List String) (raw : List RawSale) : List RawSale :=
  raw.filter (fun r => !ledger.contains r.id && r.verified != "blocklisted")

/-! ## Ordering and dispatch (src/observer.py, _filter_and_notify and
_notify) -/

/-- Stable insertion of a sale into a list already sorted by `sort_index`. -/
def insertSorted (s : ItemSale) : List ItemSale → List ItemSale
  | [] => [s]
  | t :: rest =>
    if s.sort_index < t.sort_index then s :: t :: rest
    else t :: insertSorted s rest

/-- Embeds the `sorted(self.token_sale_list, key=operator.attrgetter
("sort_index"))` call of `_filter_and_notify` (src/observer.py lines
197-201): a stable sort ascending by the feed timestamp, so sales are sent
oldest first. -/
def sortSales : List ItemSale → List ItemSale
  | [] => []
  | s :: rest => insertSorted s (sortSales rest)

/-- A notification capability: `observer.update(subject)` either returns
(possibly after logging its own channel failure internally) or raises. -/
abbrev Observer := ItemSale → Except Unit Unit

/-- Embeds `SaleFinderSubject._notify` (src/observer.py lines 251-261):
`for observer in self._observers: observer.update(self)` — there is no
try/except around the loop body.  The result is the list of observer indices
whose `update` was invoked, as `.ok` when all of them returned and as
`.error` when one raised (the raiser is the last index; the exception then
propagates out of `_notify`). -/
def notifyObs (s : ItemSale) (i : Nat) : List Observer → Except (List Nat) (List Nat)
  | [] => .ok []
  | o :: rest =>
    match o s with
    | .error _ => .error [i]
    | .ok _ =>
      match notifyObs s (i + 1) rest with
      | .error l => .error (i :: l)
      | .ok l => .ok (i :: l)

/-- State visible after `_filter_and_notify` stopped, normally or by an
escaping exception: the in-memory `_last_notified_transactions`, the log of
`_notify` invocations (transaction id and the observer indices whose `update`
ran for it), and whether an exception escaped the loop. -/
structure DispatchOut where
  ledger : List String
  log : List (String × List Nat)
  raised : Bool
deriving DecidableEq, Repr

/-- Embeds the loop of `SaleFinderSubject._filter_and_notify` (src/observer.py
lines 203-212) over the already-sorted sale list: each sale passing the
subject-level `filter_collections` check triggers `_notify` on every observer
and only then `self._last_notified_transactions.append(sale.transaction_id)`;
an exception raised by an observer's `update` escapes immediately, so the
append for that sale and all later sales is skipped while earlier appends
stay in the instance state. -/
def dispatchSales (observed : List String) (obs : List Observer) :
    List ItemSale → List String → List (String × List Nat) → DispatchOut
  | [], led, lg => { ledger := led, log := lg, raised := false }
  | s :: rest, led, lg =>
    if filter_collections observed s.contract_id then
      match notifyObs s 0 obs with
      | .error attempted =>
        { ledger := led, log := lg ++ [(s.transaction_id, attempted)],
          raised := true }
      | .ok attempted =>
        dispatchSales observed obs rest (led ++ [s.transaction_id])
          (lg ++ [(s.transaction_id, attempted)])
    else dispatchSales observed obs rest led lg

/-! ## One poll cycle (src/observer.py, SaleFinderSubject.run) and the outer
loop (src/main.py, main) -/

/-- The configuration surface the cycle reads from config.json:
`general.recentSalesAmount`, `general.oldestSaleToNotify` and the constant
`GET_AVAX_PRICE_FREQUENCY`. -/
structure Config where
  recentSalesAmount : Nat
  oldestSaleToNotify : Int
  getAvaxPriceFrequency : Int
deriving DecidableEq, Repr

/-- What the upstream would answer during one cycle.  `feed` is the
`ask_joepegs_about_recent_sales` result (`none` models Python `None` after an
exhausted retry loop); `history` and `floor` are the per-candidate
`ask_joepegs_about_sale` and `ask_joepegs_about_floor` results (the floor
wrapper never raises and always yields a number); `avaxRefresh` is the
`ask_thegraph_avax_price` result with failure sentinel 0. -/
structure CycleEnv where
  feed : Option (List RawSale)
  avaxRefresh : Rat
  history : String → Nat → Option (List HistoryEntry)
  floor : String → Rat
  now : Int

/-- The mutable instance state of `SaleFinderSubject` that survives between
cycles: `_last_notified_transactions`, `avax_price_in_usd` and
`last_checked_avax_price_at`. -/
structure CycleState where
  ledger : List String
  avaxPrice : Rat
  lastCheckedAvaxAt : Int
deriving DecidableEq, Repr

/-- Result of a cycle that ran to completion: the new instance state, the
number of upstream calls made after the feed fetch (the optional reference
price refresh plus two joepegs calls per candidate), whether
`_write_notified_sales_to_file` ran, and the `_notify` log. -/
structure RunOk where
  state : CycleState
  callsAfterFeed : Nat
  persisted : Bool
  log : List (String × List Nat)
deriving DecidableEq, Repr

/-- Embeds `SaleFinderSubject.run` (src/observer.py lines 70-88) together with
the `recentSalesAmount > 100` guard that `ask_joepegs_about_recent_sales`
(src/api_calls.py lines 34-40) evaluates before issuing the feed request.  An
`Except.error` is a Python exception escaping `run` — the guard's
`raise Exception(...)`, or `_new_sales` indexing `self.raw_sales_data[0]`
when the feed result is `None` (TypeError) or `[]` (IndexError), or an
observer's `update` raising; the error payload is the instance state left
behind, since src/main.py catches the exception and keeps the object.  The
chunking of `_get_sales_data_from_joepegs` only schedules the same
per-candidate calls in bounded groups; the enriched list is modelled in
candidate order, which `sortSales` then orders by timestamp exactly as the
code sorts its completion-ordered list. -/
def runCycle (cfg : Config) (env : CycleEnv) (obs : List Observer)
    (observed : List String) (st : CycleState) : Except CycleState RunOk :=
  if cfg.recentSalesAmount > 100 then .error st
  else
    match env.feed with
    | none => .error st
    | some [] => .error st
    | some (head :: rest) =>
      if !st.ledger.contains head.id then
        let cachePair := getAvaxPriceInUsd env.now cfg.getAvaxPriceFrequency
          env.avaxRefresh { avaxPrice := st.avaxPrice, lastCheckedAt := st.lastCheckedAvaxAt }
        let cache := cachePair.1
        let candidates := chooseSales st.ledger (head :: rest)
        let tokenSaleList := candidates.filterMap (fun r =>
          getSingleSaleData env.now cfg.oldestSaleToNotify cache.avaxPrice
            (env.history r.collection r.tokenId) (env.floor r.collection) r)
        let d := dispatchSales observed obs (sortSales tokenSaleList) st.ledger []
        if d.raised then
          .error { ledger := d.ledger, avaxPrice := cache.avaxPrice,
                   lastCheckedAvaxAt := cache.lastCheckedAt }
        else
          .ok { state := { ledger := writeNotifiedSales cfg.recentSalesAmount d.ledger,
                           avaxPrice := cache.avaxPrice,
                           lastCheckedAvaxAt := cache.lastCheckedAt },
                callsAfterFeed := (if cachePair.2 then 1 else 0) + 2 * candidates.length,
                persisted := true,
                log := d.log }
      else
        .ok { state := st, callsAfterFeed := 0, persisted := false, log := [] }

/-- Embeds the `while True` loop of `main` (src/main.py lines 55-69) over a
finite schedule of cycles: `await sale_finder_subject.run()` inside
`try/except Exception`, so a failed cycle is logged ("Will try to run again
soon") and the loop sleeps and runs the next cycle with whatever instance
state the exception left behind.  The boolean trace records, per scheduled
cycle, whether `run` completed without raising; its length is the number of
cycles the loop actually attempted. -/
def mainLoop (cfg : Config) (obs : List Observer) (observed : List String) :
    List CycleEnv → CycleState → CycleState × List Bool
  | [], st => (st, [])
  | env :: rest, st =>
    match runCycle cfg env obs observed st with
    | .error st' =>
      let next := mainLoop cfg obs observed rest st'
      (next.1, false :: next.2)
    | .ok r =>
      let next := mainLoop cfg obs observed rest r.state
      (next.1, true :: next.2)

/-! ## Helper lemmas -/

lemma jopegsRetryAux_succ_eq (f : Nat → AttemptResponse α) (i fuel : Nat) :
    jopegsRetryAux f i (fuel + 1) =
      retryPolicyStep (f i) (jopegsRetryAux f (i + 1) fuel) := by
  cases h : f i with
  | success p => simp [jopegsRetryAux, retryPolicyStep, h]
  | failure c =>
    simp only [jopegsRetryAux, retryPolicyStep, h]
    by_cases h401 : c = 401
    · simp [h401]
    · by_cases h429 : c = 429 <;> simp [h401, h429]
  | netError => simp [jopegsRetryAux, retryPolicyStep, h]

lemma mem_of_contains_eq_true {l : List String} {a : String}
    (h : l.contains a = true) : a ∈ l := List.elem_iff.mp h

lemma contains_eq_false_of_not_mem {l : List String} {a : String}
    (h : a ∉ l) : l.contains a = false := by
  cases hc : l.contains a
  · rfl
  · exact absurd (List.elem_iff.mp hc) h

/-! ## C1 -/

/-- C1 counterexample.  The claim asserts that on any non-success status
other than 401 and 429 the client waits `1 + attemptIndex` time units before
the next attempt (attempt 0 waits 1, attempt 1 waits 2).  Running the
embedded `ask_jopegs_internal` loop against three straight HTTP 500 responses
makes all 3 attempts but performs no waits at all: the `except` block of
src/api_calls.py lines 112-132 only logs — the `time.sleep(1 + 1 * tries)`
backoff exists solely in `ask_thegraph_internal`, which serves the
reference-price endpoint, not the feed/floor/history endpoints. -/
theorem c1_counterexample :
    (askJopegsInternal (fun _ => (AttemptResponse.failure 500 : AttemptResponse Unit))).attemptsMade = 3 ∧
    (askJopegsInternal (fun _ => (AttemptResponse.failure 500 : AttemptResponse Unit))).waits = [] ∧
    (askJopegsInternal (fun _ => (AttemptResponse.failure 500 : AttemptResponse Unit))).result = none ∧
    (askJopegsInternal (fun _ => (AttemptResponse.failure 500 : AttemptResponse Unit))).aborted = false := by
  decide

/-- C1 (amended): for every call to the feed, floor-price, or sale-history
endpoint the client makes up to 3 attempts, consulting only the responses to
attempts 0, 1 and 2: an HTTP 200 is parsed and returned; an HTTP 401 on any
attempt aborts the whole process; an HTTP 429 consumes one of the 3 attempts
and waits 15 time units before the next attempt; any other failure consumes
the attempt and retries immediately with no wait (the `1 + attemptIndex`
backoff exists only in the reference-price client `ask_thegraph_internal`,
whose all-failure run waits 1, 2 and 3 units); after the 3rd failed attempt
the call logs and returns an explicit no-result outcome without raising. -/
theorem c1_retry_policy :
    (∀ (α : Type) (f : Nat → AttemptResponse α),
      askJopegsInternal f = jopegsPolicySpec f) ∧
    askThegraphInternal (fun _ => (AttemptResponse.failure 500 : AttemptResponse Unit)) =
      { result := none, waits := [1, 2, 3], aborted := false, attemptsMade := 3 } := by
  constructor
  · intro α f
    unfold askJopegsInternal jopegsPolicySpec
    rw [jopegsRetryAux_succ_eq, jopegsRetryAux_succ_eq, jopegsRetryAux_succ_eq]
    rfl
  · decide

/-! ## C3 -/

/-- C3 counterexample.  With `recentSalesAmount = 0` the capacity
`2 × recentSalesAmount` is 0 and the truncation slice is
`ledger[-0:] = ledger[0:]`, the whole list: a one-element ledger survives
`_write_notified_sales_to_file` untouched, so its length exceeds the
capacity and the retained entries are not the last-`capacity` suffix. -/
theorem c3_counterexample :
    writeNotifiedSales 0 ["a"] = ["a"] ∧
    ¬ (writeNotifiedSales 0 ["a"]).length ≤ 2 * 0 := by
  decide

/-- C3 (amended): for every ledger state, after persist with capacity
`2 × recentSalesAmount` where `recentSalesAmount ≥ 1`, the ledger's length is
at most the capacity and the retained entries are exactly the
most-recently-appended `capacity` entries (the suffix; oldest entries dropped
from the front); a ledger whose length does not exceed the capacity is
written out unchanged.  (Only the degenerate configured value 0, where the
Python slice `[-0:]` keeps everything, is excluded.) -/
theorem c3_persist_truncates (r : Nat) (l : List String) (hr : 1 ≤ r) :
    (writeNotifiedSales r l).length ≤ 2 * r ∧
    writeNotifiedSales r l = l.drop (l.length - 2 * r) ∧
    l.take (l.length - 2 * r) ++ writeNotifiedSales r l = l ∧
    (l.length ≤ 2 * r → writeNotifiedSales r l = l) := by
  have h2 : r * 2 = 2 * r := Nat.mul_comm r 2
  unfold writeNotifiedSales pySliceLastN
  rw [h2]
  by_cases hlen : l.length > 2 * r
  · have hne : ¬ 2 * r = 0 := by omega
    rw [if_pos hlen, if_neg hne]
    refine ⟨?_, rfl, ?_, ?_⟩
    · rw [List.length_drop]; omega
    · exact List.take_append_drop _ l
    · intro hle; exact absurd hle (by omega)
  · rw [if_neg hlen]
    have hdrop : l.length - 2 * r = 0 := by omega
    refine ⟨by omega, by simp [hdrop], by simp [hdrop], fun _ => rfl⟩

/-- C3 witness: a three-element ledger at `recentSalesAmount = 1` is truncated
to its last two entries. -/
theorem c3_persist_truncates_witness :
    writeNotifiedSales 1 ["a", "b", "c"] = ["b", "c"] := by
  have h := c3_persist_truncates 1 ["a", "b", "c"] (by decide)
  simpa using h.2.1

/-! ## C8 -/

/-- Responses that consume one retry attempt of `ask_jopegs_internal` without
terminating it: everything except an HTTP 200 (which returns) and an HTTP 401
(which aborts the process). -/
def isRetriableResponse : AttemptResponse α → Bool
  | .success _ => false
  | .failure code => code != 401
  | .netError => true

lemma jopegsRetryAux_exhausts (f : Nat → AttemptResponse α) :
    ∀ (fuel i : Nat),
      (∀ j, i ≤ j → j < i + fuel → isRetriableResponse (f j) = true) →
      (jopegsRetryAux f i fuel).result = none ∧
      (jopegsRetryAux f i fuel).aborted = false := by
  intro fuel
  induction fuel with
  | zero =>
    intro i h
    exact ⟨rfl, rfl⟩
  | succ n ih =>
    intro i h
    have hi : isRetriableResponse (f i) = true := h i le_rfl (by omega)
    have hrest := ih (i + 1) (fun j hj1 hj2 => h j (by omega) (by omega))
    cases hfi : f i with
    | success p =>
      rw [hfi] at hi
      exact absurd hi (by simp [isRetriableResponse])
    | failure c =>
      rw [hfi] at hi
      have hc : c ≠ 401 := by simpa [isRetriableResponse] using hi
      by_cases h429 : c = 429
      · simp [jopegsRetryAux, hfi, hc, h429, hrest.1, hrest.2]
      · simp [jopegsRetryAux, hfi, hc, h429, hrest.1, hrest.2]
    | netError =>
      simp [jopegsRetryAux, hfi, hrest.1, hrest.2]

/-- C8 counterexample.  The claim asserts that an exhausted feed, floor or
history call returns an explicit no-result outcome and that every caller
treats that absence as unknown, never as the value zero.  An exhausted floor
call (three HTTP 500 responses) instead returns the number 0 — the `except`
branch of `ask_joepegs_about_floor` logs "Returning floor price = 0" — and
the enrichment caller does not skip: the candidate is enriched with
`price_floor = 0` and stays eligible for dispatch. -/
theorem c8_counterexample :
    askJoepegsAboutFloor (fun _ => AttemptResponse.failure 500) = 0 ∧
    getSingleSaleData 100 600 10 (some [⟨95, 1⟩])
      (askJoepegsAboutFloor (fun _ => AttemptResponse.failure 500))
      ⟨"tx1", "coll", 1, 99, "ok"⟩ =
      some ⟨10, ⟨"tx1", "coll", 1, 99, "ok"⟩, 0, [⟨95, 1⟩]⟩ := by
  constructor <;> rfl

/-- C8 (amended): a feed, floor-price, or sale-history call that exhausts its
3 attempts has the shared retry loop return the explicit no-result Python
`None` without raising and without aborting; the sale-history caller treats
that absence as unknown (drops the candidate so it is retried next cycle),
and the feed caller raises out of the cycle (abandoned and retried next
cycle); the floor-price wrapper however converts the absence into the value
0, which flows into the enriched sale. -/
theorem c8_no_result_handling :
    (∀ (α : Type) (f : Nat → AttemptResponse α),
      (∀ j, j < 3 → isRetriableResponse (f j) = true) →
      (askJopegsInternal f).result = none ∧
      (askJopegsInternal f).aborted = false) ∧
    (∀ (now oldest : Int) (avax floor : Rat) (raw : RawSale),
      getSingleSaleData now oldest avax none floor raw = none) ∧
    (∀ (f : Nat → AttemptResponse (Option Int)),
      (askJopegsInternal f).result = none → askJoepegsAboutFloor f = 0) ∧
    (∀ (cfg : Config) (env : CycleEnv) (obs : List Observer)
        (observed : List String) (st : CycleState),
      env.feed = none → runCycle cfg env obs observed st = .error st) := by
  refine ⟨?_, ?_, ?_, ?_⟩
  · intro α f h
    exact jopegsRetryAux_exhausts f 3 0 (fun j hj1 hj2 => h j (by omega))
  · intro now oldest avax floor raw
    rfl
  · intro f h
    unfold askJoepegsAboutFloor
    rw [h]
  · intro cfg env obs observed st hfeed
    unfold runCycle
    rw [hfeed]
    by_cases h : cfg.recentSalesAmount > 100
    · rw [if_pos h]
    · rw [if_neg h]

/-- C8 witness: three straight HTTP 503 responses — the loop yields `none`
without aborting, the floor wrapper returns 0, and a `None` feed makes the
cycle raise with the state unchanged. -/
theorem c8_no_result_handling_witness :
    ((askJopegsInternal
        (fun _ => (AttemptResponse.failure 503 : AttemptResponse (Option Int)))).result = none ∧
      (askJopegsInternal
        (fun _ => (AttemptResponse.failure 503 : AttemptResponse (Option Int)))).aborted = false) ∧
    askJoepegsAboutFloor (fun _ => AttemptResponse.failure 503) = 0 ∧
    runCycle ⟨10, 100, 60⟩ ⟨none, 0, fun _ _ => none, fun _ => 0, 0⟩ [] []
      ⟨["x"], 0, 0⟩ = .error ⟨["x"], 0, 0⟩ := by
  refine ⟨?_, ?_, ?_⟩
  · exact c8_no_result_handling.1 (Option Int) (fun _ => .failure 503) (by decide)
  · exact c8_no_result_handling.2.2.1 (fun _ => .failure 503) rfl
  · exact c8_no_result_handling.2.2.2 _ _ _ _ _ rfl

/-! ## C7 -/

/-- C7: the reference-price cache behaves exactly as specified — a query
within the TTL returns the cached value unchanged without calling the
refresh; a query past the TTL calls the refresh, a usable (truthy) result
updates both the cached value and the timestamp, and an unusable result
keeps the old value and the old timestamp so the next query refreshes again
rather than being throttled. -/
theorem c7_price_cache (now freq : Int) (refreshResult : Rat) (st : PriceCache) :
    getAvaxPriceInUsd now freq refreshResult st =
      priceCacheSpec now freq refreshResult st := by
  unfold getAvaxPriceInUsd priceCacheSpec
  by_cases h : now - st.lastCheckedAt > freq
  · have h' : ¬ now - st.lastCheckedAt ≤ freq := not_le.mpr h
    simp only [h, if_true, h', if_false]
  · have h' : now - st.lastCheckedAt ≤ freq := not_lt.mp h
    simp only [h, if_false, h', if_true]

/-! ## C5 -/

/-- C5: a subscriber's filter passes iff (its collection allowlist is empty
OR the sale's collection id, compared case-insensitively — both sides case
folded — is in the allowlist) AND (its minimum price is absent OR the sale
price is at least the minimum price); in particular a subscriber with
allowlist `["abc"]` and minimum price 2 is not notified about a sale in
collection `"ABC"` at price 1.5 and is notified about the same collection at
price 2.5.  The allowlist is lowercased by `set_collection_filter`; the
sale's collection id is case folded before the comparison
(`foldCollectionId`, modelled from the spec since data_classes.py is not
under src/). -/
theorem c5_subscriber_filter :
    (∀ (allowlist : List String) (minPrice : Rat) (c : String) (p : Rat),
      should_be_notified (set_collection_filter allowlist) minPrice
          (foldCollectionId c) p =
        ((allowlist.isEmpty ||
            (allowlist.map pyLower).contains (pyLower c)) &&
          (minPrice == 0 || decide (minPrice ≤ p)))) ∧
    should_be_notified (set_collection_filter ["abc"]) 2
      (foldCollectionId "ABC") (3 / 2) = false ∧
    should_be_notified (set_collection_filter ["abc"]) 2
      (foldCollectionId "ABC") (5 / 2) = true := by
  refine ⟨?_, ?_, ?_⟩
  · intro allowlist minPrice c p
    cases allowlist with
    | nil =>
      simp [should_be_notified, set_collection_filter, filter_by_collection,
        filer_by_price, foldCollectionId]
    | cons a as =>
      simp [should_be_notified, set_collection_filter, filter_by_collection,
        filer_by_price, foldCollectionId, Bool.or_comm]
  · have hcol : filter_by_collection (set_collection_filter ["abc"])
        (foldCollectionId "ABC") = true := by decide
    have hpr : filer_by_price 2 (3 / 2) = false := by
      unfold filer_by_price
      rw [decide_eq_false (by norm_num : ¬ ((2 : Rat) ≤ 3 / 2))]
      decide
    unfold should_be_notified
    rw [hcol, hpr]
    rfl
  · have hcol : filter_by_collection (set_collection_filter ["abc"])
        (foldCollectionId "ABC") = true := by decide
    have hpr : filer_by_price 2 (5 / 2) = true := by
      unfold filer_by_price
      rw [decide_eq_true (by norm_num : ((2 : Rat) ≤ 5 / 2))]
      decide
    unfold should_be_notified
    rw [hcol, hpr]
    rfl

/-! ## C2 -/

lemma notifyObs_all_ok (s : ItemSale) :
    ∀ (obs : List Observer) (i : Nat), (∀ o ∈ obs, o s = Except.ok ()) →
      notifyObs s i obs = .ok (List.range' i obs.length) := by
  intro obs
  induction obs with
  | nil =>
    intro i h
    simp [notifyObs]
  | cons o rest ih =>
    intro i h
    have ho : o s = Except.ok () := h o (by simp)
    have hrest := ih (i + 1) (fun o' ho' => h o' (by simp [ho']))
    simp [notifyObs, ho, hrest, List.range'_succ]

lemma notifyObs_raise (s : ItemSale) :
    ∀ (pre : List Observer) (o : Observer) (post : List Observer) (i : Nat),
      (∀ o' ∈ pre, o' s = Except.ok ()) → o s = Except.error () →
      notifyObs s i (pre ++ o :: post) =
        .error (List.range' i (pre.length + 1)) := by
  intro pre
  induction pre with
  | nil =>
    intro o post i hpre ho
    simp [notifyObs, ho, List.range'_succ]
  | cons p rest ih =>
    intro o post i hpre ho
    have hp : p s = Except.ok () := hpre p (by simp)
    have hrest := ih o post (i + 1) (fun o' h => hpre o' (by simp [h])) ho
    simp [notifyObs, hp, hrest, List.range'_succ]

/-- C2 counterexample.  The claim asserts that an exception raised by one
capability's `notify` is caught and does not prevent the remaining
capabilities, and that the sale's transaction id is appended to the ledger
regardless of individual capability outcomes.  Dispatching one sale to two
observers whose first `update` raises shows the opposite: `_notify` has no
try/except (src/observer.py lines 251-261), so the log records only observer
0 as attempted, observer 1 is never invoked, the transaction id `"tx9"` is
not appended (the in-memory ledger stays empty), and the exception escapes
the dispatch loop. -/
theorem c2_counterexample :
    dispatchSales [] [fun _ => Except.error (), fun _ => Except.ok ()]
      [⟨0, ⟨"tx9", "coll", 1, 0, "ok"⟩, 0, []⟩] [] [] =
      { ledger := [], log := [("tx9", [0])], raised := true } := rfl

/-- C2 (amended): when every registered capability's `update` returns, the
sale's transaction id is appended to the ledger after all capabilities have
been attempted (the attempt log lists every observer index), regardless of
the per-channel outcomes those capabilities handled internally; but when a
capability's `update` raises, the exception propagates out of `_notify` —
the remaining capabilities are not attempted for that sale, the sale's id is
not appended to the ledger, later sales are not dispatched, and the cycle is
abandoned with the ids appended for earlier sales retained in memory. -/
theorem c2_notify_exception_propagates :
    (∀ (observed : List String) (obs : List Observer) (s : ItemSale)
        (rest : List ItemSale) (led : List String)
        (lg : List (String × List Nat)),
      filter_collections observed s.contract_id = true →
      (∀ o ∈ obs, o s = Except.ok ()) →
      dispatchSales observed obs (s :: rest) led lg =
        dispatchSales observed obs rest (led ++ [s.transaction_id])
          (lg ++ [(s.transaction_id, List.range obs.length)])) ∧
    (∀ (observed : List String) (pre : List Observer) (o : Observer)
        (post : List Observer) (s : ItemSale) (rest : List ItemSale)
        (led : List String) (lg : List (String × List Nat)),
      filter_collections observed s.contract_id = true →
      (∀ o' ∈ pre, o' s = Except.ok ()) → o s = Except.error () →
      dispatchSales observed (pre ++ o :: post) (s :: rest) led lg =
        { ledger := led,
          log := lg ++ [(s.transaction_id, List.range (pre.length + 1))],
          raised := true }) := by
  constructor
  · intro observed obs s rest led lg hfil hobs
    have h := notifyObs_all_ok s obs 0 hobs
    simp [dispatchSales, hfil, h, List.range_eq_range']
  · intro observed pre o post s rest led lg hfil hpre ho
    have h := notifyObs_raise s pre o post 0 hpre ho
    simp [dispatchSales, hfil, h, List.range_eq_range']

/-- C2 witness: three concrete observers, the middle one raising — the
dispatch stops with only indices 0 and 1 attempted, the ledger still
`["x"]`, and the second queued sale untouched. -/
theorem c2_notify_exception_propagates_witness :
    dispatchSales []
      [fun _ => Except.ok (), fun _ => Except.error (), fun _ => Except.ok ()]
      [⟨0, ⟨"tx9", "coll", 1, 0, "ok"⟩, 0, []⟩,
       ⟨0, ⟨"tx8", "coll", 1, 1, "ok"⟩, 0, []⟩] ["x"] [] =
      { ledger := ["x"], log := [("tx9", [0, 1])], raised := true } := by
  have h := c2_notify_exception_propagates.2 [] [fun _ => Except.ok ()]
    (fun _ => Except.error ()) [fun _ => Except.ok ()]
    ⟨0, ⟨"tx9", "coll", 1, 0, "ok"⟩, 0, []⟩
    [⟨0, ⟨"tx8", "coll", 1, 1, "ok"⟩, 0, []⟩] ["x"] [] rfl
    (by intro o' h'; rw [List.mem_singleton] at h'; subst h'; rfl) rfl
  simpa using h

/-! ## C4 -/

/-- C4: when the first (most recent) entry of the fetched feed page has an id
already present in the ledger, the cycle short-circuits — `run` returns with
no enrichment and no dispatch calls, zero upstream calls beyond the feed
fetch, the ledger unchanged and the persistence step skipped. -/
theorem c4_short_circuit (cfg : Config) (env : CycleEnv) (obs : List Observer)
    (observed : List String) (st : CycleState) (head : RawSale)
    (rest : List RawSale)
    (hcfg : cfg.recentSalesAmount ≤ 100)
    (hfeed : env.feed = some (head :: rest))
    (hseen : st.ledger.contains head.id = true) :
    runCycle cfg env obs observed st =
      .ok { state := st, callsAfterFeed := 0, persisted := false, log := [] } := by
  have h100 : ¬ cfg.recentSalesAmount > 100 := not_lt.mpr hcfg
  unfold runCycle
  rw [if_neg h100, hfeed]
  have hmem : head.id ∈ st.ledger := mem_of_contains_eq_true hseen
  simp [hmem]

/-- C4 witness: a one-entry feed whose head id `"tx1"` is already ledgered
makes the cycle a no-op. -/
theorem c4_short_circuit_witness :
    runCycle ⟨10, 100, 60⟩
      ⟨some [⟨"tx1", "coll", 1, 0, "ok"⟩], 0, fun _ _ => none, fun _ => 0, 0⟩
      [] [] ⟨["tx1"], 0, 0⟩ =
      .ok ⟨⟨["tx1"], 0, 0⟩, 0, false, []⟩ :=
  c4_short_circuit _ _ _ _ _ _ _ (by decide) rfl (by decide)

/-! ## C10 -/

/-- C10: the new-sale gate indexes the first element of the fetched page, so
a cycle whose feed fetch returned the no-result outcome (Python `None`) or an
empty page raises out of `run` (caught at the outermost loop, which abandons
the cycle with the instance state unchanged) instead of being treated as
"nothing new"; and every cycle that ran to completion and persisted the
ledger had a non-empty feed page. -/
theorem c10_gate_requires_nonempty_feed :
    (∀ (cfg : Config) (env : CycleEnv) (obs : List Observer)
        (observed : List String) (st : CycleState),
      env.feed = none → runCycle cfg env obs observed st = .error st) ∧
    (∀ (cfg : Config) (env : CycleEnv) (obs : List Observer)
        (observed : List String) (st : CycleState),
      env.feed = some [] → runCycle cfg env obs observed st = .error st) ∧
    (∀ (cfg : Config) (env : CycleEnv) (obs : List Observer)
        (observed : List String) (st : CycleState) (r : RunOk),
      runCycle cfg env obs observed st = .ok r → r.persisted = true →
      ∃ h t, env.feed = some (h :: t)) := by
  refine ⟨?_, ?_, ?_⟩
  · intro cfg env obs observed st hfeed
    unfold runCycle
    rw [hfeed]
    by_cases h : cfg.recentSalesAmount > 100
    · rw [if_pos h]
    · rw [if_neg h]
  · intro cfg env obs observed st hfeed
    unfold runCycle
    rw [hfeed]
    by_cases h : cfg.recentSalesAmount > 100
    · rw [if_pos h]
    · rw [if_neg h]
  · intro cfg env obs observed st r hrun hper
    unfold runCycle at hrun
    by_cases h : cfg.recentSalesAmount > 100
    · rw [if_pos h] at hrun
      exact absurd hrun (by simp)
    · rw [if_neg h] at hrun
      cases hfe : env.feed with
      | none => rw [hfe] at hrun; exact absurd hrun (by simp)
      | some page =>
        cases page with
        | nil => rw [hfe] at hrun; exact absurd hrun (by simp)
        | cons hd tl => exact ⟨hd, tl, rfl⟩

/-- C10 witness: a `None` feed result makes the concrete cycle raise with the
ledger untouched, and a concrete persisted cycle exposes its non-empty
page. -/
theorem c10_gate_requires_nonempty_feed_witness :
    runCycle ⟨10, 100, 60⟩ ⟨none, 0, fun _ _ => none, fun _ => 0, 0⟩ [] []
        ⟨["tx1"], 0, 0⟩ = .error ⟨["tx1"], 0, 0⟩ ∧
    ∃ h t, (some [(⟨"tx1", "coll", 1, 0, "ok"⟩ : RawSale)] :
        Option (List RawSale)) = some (h :: t) := by
  constructor
  · exact c10_gate_requires_nonempty_feed.1 _ _ _ _ _ rfl
  · exact c10_gate_requires_nonempty_feed.2.2 ⟨10, 100, 60⟩
      ⟨some [⟨"tx1", "coll", 1, 0, "ok"⟩], 0, fun _ _ => some [⟨0, 1⟩],
        fun _ => 0, 0⟩ [] [] ⟨[], 0, 0⟩
      ⟨⟨["tx1"], 0, 0⟩, 2, true, [("tx1", [])]⟩ rfl rfl

/-! ## C6 -/

lemma not_mem_of_contains_eq_false {l : List String} {a : String}
    (h : l.contains a = false) : a ∉ l := by
  intro hm
  have h2 : l.contains a = true := List.elem_iff.mpr hm
  rw [h] at h2
  exact absurd h2 (by decide)

lemma mem_insertSorted {x s : ItemSale} {l : List ItemSale} :
    x ∈ insertSorted s l ↔ x = s ∨ x ∈ l := by
  induction l with
  | nil => simp [insertSorted]
  | cons t rest ih =>
    unfold insertSorted
    by_cases h : s.sort_index < t.sort_index
    · rw [if_pos h]
      simp [List.mem_cons]
    · rw [if_neg h]
      simp [List.mem_cons, ih]
      tauto

lemma mem_sortSales {x : ItemSale} {l : List ItemSale} :
    x ∈ sortSales l ↔ x ∈ l := by
  induction l with
  | nil => simp [sortSales]
  | cons s rest ih => simp [sortSales, mem_insertSorted, ih]

lemma writeNotifiedSales_subset (r : Nat) (l : List String) :
    ∀ x ∈ writeNotifiedSales r l, x ∈ l := by
  intro x hx
  unfold writeNotifiedSales pySliceLastN at hx
  split at hx
  · split at hx
    · exact hx
    · exact List.drop_subset _ _ hx
  · exact hx

lemma dispatchSales_sources (observed : List String) (obs : List Observer) :
    ∀ (sales : List ItemSale) (led : List String)
      (lg : List (String × List Nat)),
      (∀ x ∈ (dispatchSales observed obs sales led lg).ledger,
        x ∈ led ∨ ∃ s ∈ sales, x = s.transaction_id) ∧
      (∀ t a, (t, a) ∈ (dispatchSales observed obs sales led lg).log →
        (t, a) ∈ lg ∨ ∃ s ∈ sales, t = s.transaction_id) := by
  intro sales
  induction sales with
  | nil =>
    intro led lg
    constructor
    · intro x hx
      exact Or.inl hx
    · intro t a h
      exact Or.inl h
  | cons s rest ih =>
    intro led lg
    unfold dispatchSales
    by_cases hf : filter_collections observed s.contract_id = true
    · rw [if_pos hf]
      cases hno : notifyObs s 0 obs with
      | error att =>
        constructor
        · intro x hx
          exact Or.inl hx
        · intro t a h
          rcases List.mem_append.mp h with h1 | h1
          · exact Or.inl h1
          · rcases List.mem_singleton.mp h1 with h2
            exact Or.inr ⟨s, by simp, by simp [Prod.ext_iff] at h2; exact h2.1⟩
      | ok att =>
        have hrec := ih (led ++ [s.transaction_id])
          (lg ++ [(s.transaction_id, att)])
        constructor
        · intro x hx
          rcases hrec.1 x hx with h1 | ⟨s', hs', he⟩
          · rcases List.mem_append.mp h1 with h2 | h2
            · exact Or.inl h2
            · exact Or.inr ⟨s, by simp, List.mem_singleton.mp h2⟩
          · exact Or.inr ⟨s', by simp [hs'], he⟩
        · intro t a h
          rcases hrec.2 t a h with h1 | ⟨s', hs', he⟩
          · rcases List.mem_append.mp h1 with h2 | h2
            · exact Or.inl h2
            · have h3 := List.mem_singleton.mp h2
              simp [Prod.ext_iff] at h3
              exact Or.inr ⟨s, by simp, h3.1⟩
          · exact Or.inr ⟨s', by simp [hs'], he⟩
    · rw [if_neg hf]
      have hrec := ih led lg
      constructor
      · intro x hx
        rcases hrec.1 x hx with h1 | ⟨s', hs', he⟩
        · exact Or.inl h1
        · exact Or.inr ⟨s', by simp [hs'], he⟩
      · intro t a h
        rcases hrec.2 t a h with h1 | ⟨s', hs', he⟩
        · exact Or.inl h1
        · exact Or.inr ⟨s', by simp [hs'], he⟩

lemma getSingleSaleData_dropped (now oldest : Int) (avax floor : Rat)
    (raw : RawSale) (history : Option (List HistoryEntry))
    (hdrop : history = none ∨ history = some [] ∨
      ∃ h0 t, history = some (h0 :: t) ∧ now - h0.timestamp > oldest) :
    getSingleSaleData now oldest avax history floor raw = none := by
  rcases hdrop with h | h | ⟨h0, t, h, hstale⟩
  · rw [h]; rfl
  · rw [h]; rfl
  · rw [h]; simp [getSingleSaleData, hstale]

lemma getSingleSaleData_some_rawSale {now oldest : Int} {avax floor : Rat}
    {history : Option (List HistoryEntry)} {c : RawSale} {s : ItemSale}
    (hs : getSingleSaleData now oldest avax history floor c = some s) :
    s.rawSale = c := by
  unfold getSingleSaleData at hs
  cases history with
  | none => exact absurd hs (by simp)
  | some l =>
    cases l with
    | nil => exact absurd hs (by simp)
    | cons h0 t =>
      by_cases ht : now - h0.timestamp > oldest
      · simp [ht] at hs
      · simp [ht] at hs
        rw [← hs]

lemma enriched_no_dropped_id (now oldest : Int) (avax : Rat)
    (ledger : List String) (page : List RawSale) (raw : RawSale)
    (historyF : String → Nat → Option (List HistoryEntry))
    (floorF : String → Rat)
    (hdrop : historyF raw.collection raw.tokenId = none ∨
      historyF raw.collection raw.tokenId = some [] ∨
      ∃ h0 t, historyF raw.collection raw.tokenId = some (h0 :: t) ∧
        now - h0.timestamp > oldest)
    (huniq : ∀ r' ∈ page, r'.id = raw.id → r' = raw) :
    ∀ s ∈ sortSales ((chooseSales ledger page).filterMap (fun c =>
        getSingleSaleData now oldest avax (historyF c.collection c.tokenId)
          (floorF c.collection) c)),
      s.transaction_id ≠ raw.id := by
  intro s hs heq
  rw [mem_sortSales] at hs
  obtain ⟨c, hc, hcs⟩ := List.mem_filterMap.mp hs
  have hcraw : s.rawSale = c := getSingleSaleData_some_rawSale hcs
  have hcid : c.id = raw.id := by
    unfold ItemSale.transaction_id at heq
    rw [hcraw] at heq
    exact heq
  have hcpage : c ∈ page := by
    unfold chooseSales at hc
    exact (List.mem_filter.mp hc).1
  rw [huniq c hcpage hcid] at hcs
  rw [getSingleSaleData_dropped now oldest avax (floorF raw.collection) raw
    (historyF raw.collection raw.tokenId) hdrop] at hcs
  exact absurd hcs (by simp)

/-- C6: a candidate whose sale-history lookup yielded no result (or an empty
history), or whose most recent history entry is older than the configured
`oldestSaleToNotify` threshold, is dropped for the cycle — its enrichment
returns nothing, it never appears in the dispatched sequence, and its id is
not added to the ledger, so it remains eligible to be retried next cycle.
(The feed page is assumed not to repeat the candidate's transaction id on a
different entry, which would be a different sale.) -/
theorem c6_missing_or_stale_history_dropped :
    (∀ (now oldest : Int) (avax floor : Rat) (raw : RawSale)
        (history : Option (List HistoryEntry)),
      (history = none ∨ history = some [] ∨
        ∃ h0 t, history = some (h0 :: t) ∧ now - h0.timestamp > oldest) →
      getSingleSaleData now oldest avax history floor raw = none) ∧
    (∀ (cfg : Config) (env : CycleEnv) (obs : List Observer)
        (observed : List String) (st : CycleState) (page : List RawSale)
        (raw : RawSale) (r : RunOk),
      env.feed = some page → raw ∈ page →
      (env.history raw.collection raw.tokenId = none ∨
       env.history raw.collection raw.tokenId = some [] ∨
       ∃ h0 t, env.history raw.collection raw.tokenId = some (h0 :: t) ∧
         env.now - h0.timestamp > cfg.oldestSaleToNotify) →
      (∀ r' ∈ page, r'.id = raw.id → r' = raw) →
      st.ledger.contains raw.id = false →
      runCycle cfg env obs observed st = .ok r →
      (∀ a, (raw.id, a) ∉ r.log) ∧
      r.state.ledger.contains raw.id = false) := by
  constructor
  · intro now oldest avax floor raw history hdrop
    exact getSingleSaleData_dropped now oldest avax floor raw history hdrop
  · intro cfg env obs observed st page raw r hfeed hpage hdrop huniq hnotled hrun
    unfold runCycle at hrun
    by_cases h100 : cfg.recentSalesAmount > 100
    · rw [if_pos h100] at hrun
      exact absurd hrun (by simp)
    · rw [if_neg h100] at hrun
      rw [hfeed] at hrun
      cases page with
      | nil => exact absurd hrun (by simp)
      | cons head rest =>
        dsimp only at hrun
        by_cases hgate : st.ledger.contains head.id = true
        · rw [hgate] at hrun
          simp only [Bool.not_true] at hrun
          rw [if_neg (by decide)] at hrun
          have hr := Except.ok.inj hrun
          subst hr
          exact ⟨by simp, hnotled⟩
        · have hgate' : st.ledger.contains head.id = false := by
            cases hc : st.ledger.contains head.id
            · rfl
            · exact absurd hc hgate
          rw [hgate'] at hrun
          simp only [Bool.not_false, if_true] at hrun
          have hkey := enriched_no_dropped_id env.now cfg.oldestSaleToNotify
            (getAvaxPriceInUsd env.now cfg.getAvaxPriceFrequency env.avaxRefresh
              { avaxPrice := st.avaxPrice,
                lastCheckedAt := st.lastCheckedAvaxAt }).1.avaxPrice
            st.ledger (head :: rest) raw env.history env.floor hdrop huniq
          split at hrun
          · exact absurd hrun (by simp)
          · have hr := Except.ok.inj hrun
            subst hr
            constructor
            · intro a hmem
              rcases (dispatchSales_sources observed obs _ st.ledger []).2
                  raw.id a hmem with h1 | ⟨s, hs, he⟩
              · exact absurd h1 (by simp)
              · exact absurd he.symm (hkey s hs)
            · apply contains_eq_false_of_not_mem
              intro hmem
              have h2 := writeNotifiedSales_subset _ _ raw.id hmem
              rcases (dispatchSales_sources observed obs _ st.ledger []).1
                  raw.id h2 with h1 | ⟨s, hs, he⟩
              · exact absurd h1 (not_mem_of_contains_eq_false hnotled)
              · exact absurd he.symm (hkey s hs)

/-- C6 witness: a two-entry feed where `"tx2"`'s history is 150 seconds old
against a 100-second threshold — the completed cycle dispatches only
`"tx1"` and the ledger still lacks `"tx2"`. -/
theorem c6_missing_or_stale_history_dropped_witness :
    getSingleSaleData 150 100 0 (some [⟨0, 1⟩]) 0
      ⟨"tx2", "collB", 2, 0, "ok"⟩ = none ∧
    (∀ a, (("tx2", a) : String × List Nat) ∉ [(("tx1", []) : String × List Nat)]) ∧
    (["tx1"] : List String).contains "tx2" = false := by
  refine ⟨?_, ?_, by decide⟩
  · exact c6_missing_or_stale_history_dropped.1 150 100 0 0
      ⟨"tx2", "collB", 2, 0, "ok"⟩ (some [⟨0, 1⟩])
      (Or.inr (Or.inr ⟨⟨0, 1⟩, [], rfl, by decide⟩))
  · have h := c6_missing_or_stale_history_dropped.2 ⟨10, 100, 60⟩
      ⟨some [⟨"tx1", "collA", 1, 0, "ok"⟩, ⟨"tx2", "collB", 2, 0, "ok"⟩], 0,
        fun c _ => if c = "collA" then some [⟨100, 1⟩] else some [⟨0, 1⟩],
        fun _ => 0, 150⟩
      [] [] ⟨[], 0, 0⟩
      [⟨"tx1", "collA", 1, 0, "ok"⟩, ⟨"tx2", "collB", 2, 0, "ok"⟩]
      ⟨"tx2", "collB", 2, 0, "ok"⟩
      ⟨⟨["tx1"], 0, 0⟩, 5, true, [("tx1", [])]⟩
      rfl (by decide)
      (Or.inr (Or.inr ⟨⟨0, 1⟩, [], by decide, by decide⟩))
      (by decide) (by decide) rfl
    exact h.1

/-- C9 counterexample.  The claim says a configured `recentSalesAmount`
exceeding 100 stops the process and is not retried.  Running the embedded
main loop with `recentSalesAmount = 101` over a two-cycle schedule shows
both cycles are attempted: the guard's `raise` in
`ask_joepegs_about_recent_sales` is caught by the `except Exception` of
src/main.py lines 58-61, which logs "Will try to run again soon" and retries
every cycle — the process never stops. -/
theorem c9_counterexample :
    mainLoop ⟨101, 100, 60⟩ [] []
      [⟨some [⟨"tx1", "coll", 1, 0, "ok"⟩], 0, fun _ _ => none, fun _ => 0, 0⟩,
       ⟨some [⟨"tx1", "coll", 1, 0, "ok"⟩], 0, fun _ _ => none, fun _ => 0, 0⟩]
      ⟨[], 0, 0⟩ = (⟨[], 0, 0⟩, [false, false]) := rfl

/-- C9 (amended): a configured `recentSalesAmount` exceeding 100 makes every
cycle raise before any upstream call is issued; the exception is caught by
the outer loop, which leaves the state untouched and retries on every
subsequent cycle, so the process does not stop on its own. -/
theorem c9_config_guard_every_cycle (cfg : Config) (obs : List Observer)
    (observed : List String) (envs : List CycleEnv) (st : CycleState)
    (h : cfg.recentSalesAmount > 100) :
    mainLoop cfg obs observed envs st = (st, envs.map fun _ => false) := by
  induction envs with
  | nil => simp [mainLoop]
  | cons e rest ih =>
    unfold mainLoop runCycle
    rw [if_pos h]
    simp [ih]

/-- C9 witness: one scheduled cycle at `recentSalesAmount = 101` fails and is
rescheduled with the state unchanged. -/
theorem c9_config_guard_every_cycle_witness :
    mainLoop ⟨101, 100, 60⟩ [] []
      [⟨none, 0, fun _ _ => none, fun _ => 0, 0⟩] ⟨["a"], 0, 0⟩ =
      (⟨["a"], 0, 0⟩, [false]) := by
  have h := c9_config_guard_every_cycle ⟨101, 100, 60⟩ [] []
    [⟨none, 0, fun _ _ => none, fun _ => 0, 0⟩] ⟨["a"], 0, 0⟩ (by decide)
  simpa using h



